import Mathlib

/-!
Shallow embedding of the validation engine of `src/utils/validationEngine.ts`
(class `ValidationEngine`: `validateData`, `validateField`, `parseJsonArray`,
`getAllTaskIds`, the built-in rule registry, `getRules`, `addCustomRule`)
and of the score computation of `src/components/ValidationDashboard.tsx`
(`validationScore`, `exportDetailedReport`).

JavaScript dynamic values are embedded as the inductive `JSValue`
(strings, numbers, booleans, null, undefined, arrays).  Numbers are
modelled as exact decimals (`JSNum`); the repository only manipulates
short decimal literals, for which exact decimal arithmetic agrees with
IEEE doubles.  Code that can throw a `TypeError` (a method call on a value
that lacks the method, or a property access on `undefined`) is embedded
in `Except JSError`; a `.ok` result is a normal return, a `.error`
result is a thrown exception.
-/

namespace DataClarity

/-- The kind of a validation rule (`ValidationRule.type` in the source). -/
inductive RuleType where
  | required | email | phone | reference | duplicate | range | regex | custom
deriving DecidableEq, Repr

/-- Severity of a rule / error (`'error' | 'warning'` in the source). -/
inductive Severity where
  | error | warning
deriving DecidableEq, Repr

/-- The regular-expression objects stored in a rule's `config.pattern`.
The sole built-in one is `/^\[.*\]$/` (rule `skill-format`). -/
inductive JSRegex where
  | skillFormat
deriving DecidableEq, Repr

/-- A JS number, as an exact decimal `num / 10 ^ den10`.  Every numeric
literal the repository manipulates is a short decimal, on which this
representation agrees exactly with IEEE doubles; keeping the
denominator a power of ten (no gcd normalization) keeps all arithmetic
kernel-reducible. -/
structure JSNum where
  num : Int
  den10 : Nat
deriving DecidableEq, Repr

/-- Numeric equality of decimals (`===` on numbers), by
cross-multiplication. -/
def jsNumEq (a b : JSNum) : Bool :=
  a.num * ((10 ^ b.den10 : Nat) : Int) == b.num * ((10 ^ a.den10 : Nat) : Int)

/-- Numeric `<` on decimals, by cross-multiplication. -/
def jsNumLt (a b : JSNum) : Bool :=
  a.num * ((10 ^ b.den10 : Nat) : Int) < b.num * ((10 ^ a.den10 : Nat) : Int)

/-- Embedded JavaScript value: the row cells, parsed JSON values and rule
field values are of this type.  `vUndef` is the value of a missing
property access. -/
inductive JSValue where
  | vStr : String → JSValue
  | vNum : JSNum → JSValue
  | vBool : Bool → JSValue
  | vNull : JSValue
  | vUndef : JSValue
  | vArr : List JSValue → JSValue
deriving Repr

/-- `config` object of a rule: the engine reads `config.min`, `config.max`
(range rules) and `config.pattern` (regex rules); a missing property
reads as `undefined`, modelled by `none`. -/
structure RuleConfig where
  min : Option JSNum
  max : Option JSNum
  pattern : Option JSRegex
deriving Repr

/-- `ValidationRule` of the source.  `config` is optional there
(`config?: any`); `none` models an absent `config`. -/
structure ValidationRule where
  id : String
  name : String
  type : RuleType
  field : String
  message : String
  severity : Severity
  config : Option RuleConfig
deriving Repr

/-- `ValidationError` of the source. -/
structure ValidationError where
  row : Nat
  column : String
  message : String
  severity : Severity
  ruleId : String
deriving DecidableEq, Repr

/-- A thrown JavaScript exception (only `TypeError`s can arise in the
embedded code paths). -/
inductive JSError where
  | typeError : String → JSError
deriving DecidableEq, Repr

/-- A row is a JS object: an ordered association list from property name
to value.  `rowGet` below models `row[field]`. -/
abbrev JSRow := List (String × JSValue)

/-- One loaded file as seen by `getAllTaskIds` (`allFiles` entries carry
`name` and `data`; the other properties are not read by the engine). -/
structure TableFile where
  name : String
  data : List JSRow
deriving Repr

/-- `allFiles`: `Object.values` of the files object, in insertion order
(the keys are never read by the engine). -/
abbrev Dataset := List TableFile

/-- Property access `row[field]`: the first binding wins; a missing
property is `undefined`. -/
def rowGet (row : JSRow) (field : String) : JSValue :=
  match row.find? (fun p => p.1 == field) with
  | some p => p.2
  | none => JSValue.vUndef

/-- JavaScript truthiness: `''`, `0`, `false`, `null`, `undefined` are
falsy; every other embedded value (including any array) is truthy. -/
def truthy : JSValue → Bool
  | .vStr s => !(s == "")
  | .vNum q => !(q.num == 0)
  | .vBool b => b
  | .vNull => false
  | .vUndef => false
  | .vArr _ => true

/-- Decimal rendering of a JS number, as JavaScript renders short
decimals (`String(0.5) = "0.5"`, `String(100) = "100"`, `String(-0) =
"0"`): digits of the numerator split at the decimal point, trailing
fractional zeros trimmed. -/
def jsNumToString (q : JSNum) : String :=
  if q.num == 0 then "0"
  else
    let digits := toString q.num.natAbs
    let digits := if digits.length ≤ q.den10 then
      String.mk (List.replicate (q.den10 + 1 - digits.length) '0') ++ digits else digits
    let intPart := digits.dropRight q.den10
    let fracPart := String.mk
      (((digits.takeRight q.den10).data.reverse.dropWhile (· == '0')).reverse)
    (if q.num < 0 then "-" else "") ++ intPart ++
      (if fracPart == "" then "" else "." ++ fracPart)

/-- Coercion of one array element under `Array.prototype.join` /
`Array.prototype.toString`: `null` and `undefined` become empty.
(Nested arrays would recurse in JS; the repository's data never nests
them, so they are rendered empty here.) -/
def jsArrElemString : JSValue → String
  | .vStr s => s
  | .vNum q => jsNumToString q
  | .vBool b => if b then "true" else "false"
  | .vNull => ""
  | .vUndef => ""
  | .vArr _ => ""

/-- String coercion `String(v)` / template-literal interpolation.  Arrays
stringify as their elements joined by `","`. -/
def jsToString : JSValue → String
  | .vStr s => s
  | .vNum q => jsNumToString q
  | .vBool b => if b then "true" else "false"
  | .vNull => "null"
  | .vUndef => "undefined"
  | .vArr l => String.intercalate "," (l.map jsArrElemString)

/-- Strict equality `===` / `SameValueZero` as used by `Map` keys and
`Array.includes`: structural on primitives, always false between two
array values — the arrays compared in the engine are always distinct
heap objects (fresh per row or per `JSON.parse`), so reference equality
never holds between them. -/
def jsStrictEq : JSValue → JSValue → Bool
  | .vStr a, .vStr b => a == b
  | .vNum a, .vNum b => jsNumEq a b
  | .vBool a, .vBool b => a == b
  | .vNull, .vNull => true
  | .vUndef, .vUndef => true
  | _, _ => false

/-- The whitespace class `\s` of the source's regexes and of
`String.prototype.trim`, restricted to its ASCII members. -/
def isJsSpace (c : Char) : Bool :=
  c == ' ' || c == '\t' || c == '\n' || c == '\r' || c == '\x0b' || c == '\x0c'

/-- `String.prototype.trim`. -/
def jsTrim (s : String) : String :=
  String.mk (((s.data.dropWhile isJsSpace).reverse.dropWhile isJsSpace).reverse)

/-- Digit recognition for the numeric parsers. -/
def isDigitChar (c : Char) : Bool := '0' ≤ c && c ≤ '9'

/-- Numeric value of a digit list (most significant first). -/
def digitsToNat (ds : List Char) : Nat :=
  ds.foldl (fun acc c => acc * 10 + (c.toNat - '0'.toNat)) 0

/-- `parseFloat` on a string, modelled on decimal literals: skip leading
whitespace, optional sign, integer digits, optional `.` and fraction
digits, ignoring any trailing garbage (`parseFloat` parses the longest
numeric prefix); `none` models `NaN`.  Exponent notation and `Infinity`
are not modelled — the repository never feeds them to a range rule. -/
def parseFloatStr (s : String) : Option JSNum :=
  let cs := s.data.dropWhile isJsSpace
  let (sign, cs) : Int × List Char :=
    match cs with
    | '-' :: rest => (-1, rest)
    | '+' :: rest => (1, rest)
    | _ => (1, cs)
  let intDigits := cs.takeWhile isDigitChar
  let cs := cs.drop intDigits.length
  let fracDigits :=
    match cs with
    | '.' :: rest => rest.takeWhile isDigitChar
    | _ => []
  if intDigits.length + fracDigits.length == 0 then none
  else some ⟨sign * ((digitsToNat intDigits * 10 ^ fracDigits.length +
    digitsToNat fracDigits : Nat) : Int), fracDigits.length⟩

/-- `parseFloat(value)` with the implicit string coercion of its
argument. -/
def jsParseFloat (v : JSValue) : Option JSNum := parseFloatStr (jsToString v)

/-- Is there a `.` in the list at a position that is neither the first
nor the last character?  Helper for the e-mail regex: the domain part
`[^\s@]+\.[^\s@]+` matches exactly when such a dot exists. -/
def midDotAux : List Char → Bool
  | [] => false
  | [_] => false
  | '.' :: _ :: _ => true
  | _ :: c :: rest => midDotAux (c :: rest)

def hasMidDot : List Char → Bool
  | [] => false
  | _ :: rest => midDotAux rest

/-- `/^[^\s@]+@[^\s@]+\.[^\s@]+$/.test(s)`: no whitespace anywhere,
exactly one `@`, a non-empty local part, and a domain part that can be
split around some `.` into two non-empty pieces. -/
def emailTest (s : String) : Bool :=
  match s.splitOn "@" with
  | [localPart, domain] =>
    !(localPart == "") && !(domain == "") &&
    (s.data.all fun c => !isJsSpace c) && hasMidDot domain.data
  | _ => false

/-- The character class `[-\s\(\)]` stripped by the phone rule. -/
def isPhoneStrip (c : Char) : Bool :=
  c == '-' || isJsSpace c || c == '(' || c == ')'

/-- `/^[\+]?[1-9][\d]{0,15}$/.test(s)`: optional leading `+`, then 1 to
16 digits, the first of which is non-zero. -/
def phoneTest (s : String) : Bool :=
  let cs := match s.data with
    | '+' :: rest => rest
    | cs => cs
  match cs with
  | [] => false
  | d :: rest => '1' ≤ d && d ≤ '9' && rest.all isDigitChar && rest.length ≤ 15

/-- `/^\[.*\]$/.test(s)` (no `s` flag, so `.` excludes line
terminators): the string is `[` … `]` with no newline in between. -/
def skillFormatTest (s : String) : Bool :=
  match s.data with
  | '[' :: c :: rest => ((c :: rest).dropLast).all (fun ch => ch ≠ '\n' && ch ≠ '\r')
      && (c :: rest).getLast? == some ']'
  | _ => false

/-- Dispatch of `config.pattern.test(String(value))`. -/
def regexTest : JSRegex → String → Bool
  | .skillFormat, s => skillFormatTest s

/-- Whitespace skipped by `JSON.parse`. -/
def jsonWs (c : Char) : Bool := c == ' ' || c == '\t' || c == '\n' || c == '\r'

/-- A JSON number without sign or exponent: digits, optionally `.` and
more digits. -/
def parseJsonNum (cs : List Char) : Option (JSNum × List Char) :=
  let intDigits := cs.takeWhile isDigitChar
  if intDigits.isEmpty then none
  else
    let cs := cs.drop intDigits.length
    match cs with
    | '.' :: rest =>
      let fracDigits := rest.takeWhile isDigitChar
      if fracDigits.isEmpty then none
      else some (⟨((digitsToNat intDigits * 10 ^ fracDigits.length +
        digitsToNat fracDigits : Nat) : Int), fracDigits.length⟩,
        rest.drop fracDigits.length)
    | _ => some (⟨(digitsToNat intDigits : Int), 0⟩, cs)

mutual

/-- One `JSON.parse` value, fuelled recursive descent over the modelled
subset of JSON: `null`, `true`, `false`, numbers without exponent,
strings without escape sequences, and arrays.  Inputs outside the
subset are parse failures (a thrown `SyntaxError`, which the caller
`parseJsonArray` catches).  Returns the value and the rest of the
input. -/
def parseJsonVal : Nat → List Char → Option (JSValue × List Char)
  | 0, _ => none
  | fuel + 1, cs =>
    match cs.dropWhile jsonWs with
    | 'n' :: 'u' :: 'l' :: 'l' :: rest => some (.vNull, rest)
    | 't' :: 'r' :: 'u' :: 'e' :: rest => some (.vBool true, rest)
    | 'f' :: 'a' :: 'l' :: 's' :: 'e' :: rest => some (.vBool false, rest)
    | '"' :: rest =>
      let str := rest.takeWhile (fun c => c ≠ '"')
      (match rest.drop str.length with
       | '"' :: rest2 => some (.vStr (String.mk str), rest2)
       | _ => none)
    | '[' :: rest =>
      (match rest.dropWhile jsonWs with
       | ']' :: rest2 => some (.vArr [], rest2)
       | _ => parseJsonElems fuel rest [])
    | '-' :: rest =>
      (match parseJsonNum rest with
       | some (q, rest2) => some (.vNum ⟨-q.num, q.den10⟩, rest2)
       | none => none)
    | c :: rest =>
      if isDigitChar c then
        (match parseJsonNum (c :: rest) with
         | some (q, rest2) => some (.vNum q, rest2)
         | none => none)
      else none
    | [] => none

/-- The comma-separated elements of a non-empty JSON array, then the
closing `]`. -/
def parseJsonElems : Nat → List Char → List JSValue → Option (JSValue × List Char)
  | 0, _, _ => none
  | fuel + 1, cs, acc =>
    match parseJsonVal fuel cs with
    | none => none
    | some (v, rest) =>
      match rest.dropWhile jsonWs with
      | ',' :: rest2 => parseJsonElems fuel rest2 (acc ++ [v])
      | ']' :: rest2 => some (.vArr (acc ++ [v]), rest2)
      | _ => none

end

/-- `JSON.parse(s)` over the modelled subset: the whole input must be
consumed up to trailing whitespace; `none` is a thrown `SyntaxError`. -/
def jsonParse (s : String) : Option JSValue :=
  match parseJsonVal (s.length + 1) s.data with
  | some (v, rest) => if (rest.dropWhile jsonWs).isEmpty then some v else none
  | none => none

/-- ASCII lower-casing of one character (`String.prototype.toLowerCase`
restricted to ASCII, all the file names here use). -/
def charToLower (c : Char) : Char :=
  if 'A' ≤ c && c ≤ 'Z' then Char.ofNat (c.toNat + 32) else c

/-- `String.prototype.toLowerCase` over ASCII. -/
def jsToLower (s : String) : String := String.mk (s.data.map charToLower)

/-- Substring search over character lists. -/
def containsSubList (needle : List Char) : List Char → Bool
  | [] => needle.isEmpty
  | c :: rest => needle.isPrefixOf (c :: rest) || containsSubList needle rest

/-- Substring test (`String.prototype.includes`); the caller lower-cases
the haystack first, as the source does. -/
def containsSub (needle hay : String) : Bool :=
  containsSubList needle.data hay.data

/-- `parseJsonArray` of the source: `JSON.parse(value) || []`, a thrown
parse error caught to `[]`.  `JSON.parse` string-coerces its argument.
Note the result need not be an array: a truthy non-array parse (a
number, a non-empty string) is returned as-is. -/
def parseJsonArray (value : JSValue) : JSValue :=
  match jsonParse (jsToString value) with
  | some parsed => if truthy parsed then parsed else .vArr []
  | none => .vArr []

/-- `getAllTaskIds` of the source: the first file whose `name`
lower-cases to contain `"task"`, its `data` mapped to `row.TaskID` and
filtered by `Boolean` (truthiness). -/
def getAllTaskIds (allFiles : Dataset) : List JSValue :=
  match allFiles.find? (fun file => containsSub "task" (jsToLower file.name)) with
  | some taskFile => (taskFile.data.map (fun row => rowGet row "TaskID")).filter truthy
  | none => []

/-- `numValue < rule.config.min` with a possibly-`undefined` bound: a
comparison against `undefined` is false in JS. -/
def jsLtOpt (n : JSNum) : Option JSNum → Bool
  | some m => jsNumLt n m
  | none => false

/-- `numValue > rule.config.max` with a possibly-`undefined` bound. -/
def jsGtOpt (n : JSNum) : Option JSNum → Bool
  | some m => jsNumLt m n
  | none => false

/-- Interpolation of `rule.config.min` / `rule.config.max` into the
range message (an absent bound prints as `undefined`). -/
def optNumToString : Option JSNum → String
  | some q => jsNumToString q
  | none => "undefined"

/-- `validateField` of the source, one case per `rule.type`.  A `.ok`
result is the returned `ValidationError | null`; a `.error` result is a
thrown `TypeError` (method call on a value without that method, or
property access on an `undefined` `config`). -/
def validateField (value : JSValue) (rule : ValidationRule) (rowIndex : Nat)
    (row : JSRow) (allFiles : Option Dataset) :
    Except JSError (Option ValidationError) :=
  match rule.type with
  | .required =>
    if !truthy value || jsTrim (jsToString value) == "" then
      .ok (some ⟨rowIndex, rule.field, rule.message, rule.severity, rule.id⟩)
    else .ok none
  | .email =>
    if truthy value && !emailTest (jsToString value) then
      .ok (some ⟨rowIndex, rule.field, rule.message, rule.severity, rule.id⟩)
    else .ok none
  | .phone =>
    if truthy value then
      match value with
      | .vStr s =>
        if !phoneTest (String.mk (s.data.filter (fun c => !isPhoneStrip c))) then
          .ok (some ⟨rowIndex, rule.field, rule.message, rule.severity, rule.id⟩)
        else .ok none
      | _ => .error (.typeError "value.replace is not a function")
    else .ok none
  | .range =>
    match jsParseFloat value with
    | none => .ok none
    | some numValue =>
      match rule.config with
      | none => .error (.typeError "Cannot read properties of undefined (reading min)")
      | some config =>
        if jsLtOpt numValue config.min || jsGtOpt numValue config.max then
          .ok (some ⟨rowIndex, rule.field,
            rule.message ++ " (" ++ optNumToString config.min ++ "-" ++
              optNumToString config.max ++ ")",
            rule.severity, rule.id⟩)
        else .ok none
  | .regex =>
    if truthy value then
      match rule.config with
      | none => .error (.typeError "Cannot read properties of undefined (reading pattern)")
      | some config =>
        match config.pattern with
        | none => .error (.typeError "rule.config.pattern.test is not a function")
        | some pat =>
          if !regexTest pat (jsToString value) then
            .ok (some ⟨rowIndex, rule.field, rule.message, rule.severity, rule.id⟩)
          else .ok none
    else .ok none
  | .reference =>
    if truthy value then
      match allFiles with
      | none => .ok none
      | some files =>
        match parseJsonArray value with
        | .vArr taskIds =>
          let allTaskIds := getAllTaskIds files
          let invalidRefs := taskIds.filter
            (fun id => !(allTaskIds.any (fun t => jsStrictEq t id)))
          if invalidRefs.length > 0 then
            .ok (some ⟨rowIndex, rule.field,
              rule.message ++ ": " ++
                String.intercalate ", " (invalidRefs.map jsArrElemString),
              rule.severity, rule.id⟩)
          else .ok none
        | _ => .error (.typeError "taskIds.filter is not a function")
    else .ok none
  | .duplicate => .ok none
  | .custom => .ok none

/-- The `duplicateTracker` `Map<string, number[]>`: an association list
in key-insertion order, exactly the deterministic iteration order of a
JS `Map`. -/
abbrev Tracker := List (JSValue × List Nat)

/-- `if (!tracker.has(v)) tracker.set(v, []); tracker.get(v)!.push(i)`:
push `i` onto the existing entry for `v`, or append a fresh entry. -/
def trackerPush (tr : Tracker) (v : JSValue) (i : Nat) : Tracker :=
  if tr.any (fun p => jsStrictEq p.1 v) then
    tr.map (fun p => if jsStrictEq p.1 v then (p.1, p.2 ++ [i]) else p)
  else tr ++ [(v, [i])]

/-- The inner `this.rules.forEach(rule => …)` of `validateData`:
validates each rule against the row, appending errors and tracking
duplicate-rule field values, in registry order. -/
def runRules (row : JSRow) (rowIndex : Nat) (allFiles : Option Dataset) :
    List ValidationRule → List ValidationError → Tracker →
    Except JSError (List ValidationError × Tracker)
  | [], errs, tr => .ok (errs, tr)
  | rule :: rest, errs, tr =>
    let fieldValue := rowGet row rule.field
    match validateField fieldValue rule rowIndex row allFiles with
    | .error e => .error e
    | .ok errOpt =>
      runRules row rowIndex allFiles rest
        (match errOpt with | some e => errs ++ [e] | none => errs)
        (if rule.type == .duplicate && truthy fieldValue then
          trackerPush tr fieldValue rowIndex else tr)

/-- The outer `data.forEach((row, rowIndex) => …)` of `validateData`. -/
def runRows (rules : List ValidationRule) (allFiles : Option Dataset) :
    List JSRow → Nat → List ValidationError → Tracker →
    Except JSError (List ValidationError × Tracker)
  | [], _, errs, tr => .ok (errs, tr)
  | row :: rest, i, errs, tr =>
    match runRules row i allFiles rules errs tr with
    | .error e => .error e
    | .ok (errs', tr') => runRows rules allFiles rest (i + 1) errs' tr'

/-- The errors one tracker entry contributes in the post-pass: nothing
for a singleton group; otherwise one error per tracked row index, with
the hard-coded column `ClientID` and ruleId `duplicate-ids` of the
source and a message listing all 1-based row numbers of the group. -/
def dupGroupErrors (v : JSValue) (rows : List Nat) : List ValidationError :=
  if rows.length > 1 then
    rows.map (fun rowIndex =>
      ⟨rowIndex, "ClientID",
       "Duplicate ID \"" ++ jsToString v ++ "\" found in rows " ++
         String.intercalate ", " (rows.map (fun r => toString (r + 1))),
       .error, "duplicate-ids"⟩)
  else []

/-- The `duplicateTracker.forEach((rows, value) => …)` post-pass of
`validateData`, in tracker (Map-insertion) order. -/
def dupPhase (tr : Tracker) : List ValidationError :=
  tr.foldr (fun p acc => dupGroupErrors p.1 p.2 ++ acc) []

/-- `validateData` of the source: the per-row/per-rule pass accumulating
errors and the duplicate tracker, then the duplicate post-pass appended
to the error list.  `headers` and `fileName` are parameters of the
source method that its body never reads. -/
def validateData (rules : List ValidationRule) (data : List JSRow)
    (headers : List String) (fileName : String) (allFiles : Option Dataset) :
    Except JSError (List ValidationError) :=
  match runRows rules allFiles data 0 [] [] with
  | .error e => .error e
  | .ok (errs, tr) => .ok (errs ++ dupPhase tr)

/-- The built-in rule registry (`private rules` initializer of
`ValidationEngine`), in source order. -/
def builtinRules : List ValidationRule :=
  [⟨"req-client-name", "Required Client Name", .required, "Name",
    "Client name is required", .error, none⟩,
   ⟨"email-format", "Email Format", .email, "Email",
    "Invalid email format", .error, none⟩,
   ⟨"phone-format", "Phone Format", .phone, "PhoneNumber",
    "Invalid phone number format", .warning, none⟩,
   ⟨"duplicate-ids", "Duplicate IDs", .duplicate, "ClientID",
    "Duplicate ID found", .error, none⟩,
   ⟨"worker-load-range", "Worker Load Range", .range, "CurrentLoad",
    "Current load exceeds maximum capacity", .warning,
    some ⟨some ⟨0, 0⟩, some ⟨100, 0⟩, none⟩⟩,
   ⟨"task-reference", "Task References", .reference, "TaskIDs",
    "Referenced task ID not found", .error, none⟩,
   ⟨"hourly-rate-range", "Hourly Rate Range", .range, "HourlyRate",
    "Hourly rate seems unusually high/low", .warning,
    some ⟨some ⟨15, 0⟩, some ⟨200, 0⟩, none⟩⟩,
   ⟨"skill-format", "Skills Format", .regex, "Skills",
    "Skills must be in JSON array format", .error,
    some ⟨none, none, some .skillFormat⟩⟩]

/-- The mutable state of a `ValidationEngine` instance: its rule list. -/
structure EngineState where
  rules : List ValidationRule

/-- A fresh engine (`new ValidationEngine()`). -/
def initialEngine : EngineState := ⟨builtinRules⟩

/-- `getRules` of the source. -/
def getRules (s : EngineState) : List ValidationRule := s.rules

/-- `addCustomRule` of the source: `this.rules.push(rule)`. -/
def addCustomRule (s : EngineState) (rule : ValidationRule) : EngineState :=
  ⟨s.rules ++ [rule]⟩

/-- The `validateData` method as a state transformer on the engine
instance: its body reads `this.rules` and assigns no field, so the
resulting state is the input state. -/
def validateDataM (s : EngineState) (data : List JSRow) (headers : List String)
    (fileName : String) (allFiles : Option Dataset) :
    Except JSError (List ValidationError) × EngineState :=
  (validateData s.rules data headers fileName allFiles, s)

/-! Compositional restatement of the two folds of `validateData`, used
to prove that its output is the per-row error list (outer loop over
rows, inner loop over rules) followed by the duplicate post-pass. -/

/-- The errors one row contributes, per rule in registry order. -/
def rowErrs (row : JSRow) (rowIndex : Nat) (allFiles : Option Dataset) :
    List ValidationRule → Except JSError (List ValidationError)
  | [] => .ok []
  | rule :: rest =>
    match validateField (rowGet row rule.field) rule rowIndex row allFiles with
    | .error e => .error e
    | .ok errOpt =>
      match rowErrs row rowIndex allFiles rest with
      | .error e => .error e
      | .ok es => .ok (errOpt.toList ++ es)

/-- The per-row error lists concatenated in row order, starting at row
index `i`. -/
def perRowErrs (rules : List ValidationRule) (allFiles : Option Dataset) :
    List JSRow → Nat → Except JSError (List ValidationError)
  | [], _ => .ok []
  | row :: rest, i =>
    match rowErrs row i allFiles rules with
    | .error e => .error e
    | .ok es =>
      match perRowErrs rules allFiles rest (i + 1) with
      | .error e => .error e
      | .ok es' => .ok (es ++ es')

/-- The duplicate-tracker updates one row contributes. -/
def rulesTracker (row : JSRow) (rowIndex : Nat) :
    List ValidationRule → Tracker → Tracker
  | [], tr => tr
  | rule :: rest, tr =>
    let fieldValue := rowGet row rule.field
    rulesTracker row rowIndex rest
      (if rule.type == .duplicate && truthy fieldValue then
        trackerPush tr fieldValue rowIndex else tr)

/-- The duplicate tracker after all rows, starting at row index `i`. -/
def buildTrackerAux (rules : List ValidationRule) :
    List JSRow → Nat → Tracker → Tracker
  | [], _, tr => tr
  | row :: rest, i, tr => buildTrackerAux rules rest (i + 1) (rulesTracker row i rules tr)

/-- The duplicate tracker `validateData` ends up with on `data`. -/
def buildTracker (rules : List ValidationRule) (data : List JSRow) : Tracker :=
  buildTrackerAux rules data 0 []

/-! Embedding of the score computation of
`src/components/ValidationDashboard.tsx`. -/

/-- One entry of the dashboard's `files` prop; only the fields its
score computation reads. -/
structure ReportFile where
  name : String
  data : List JSRow
  validationErrors : List ValidationError

/-- `Object.values(files)` in insertion order. -/
abbrev ReportFiles := List ReportFile

/-- `allErrors` of the dashboard (the added `fileName` annotation does
not affect any count). -/
def allErrorsOf (files : ReportFiles) : List ValidationError :=
  files.foldr (fun f acc => f.validationErrors ++ acc) []

/-- `errorCount` of the dashboard. -/
def errorCount (files : ReportFiles) : Nat :=
  (allErrorsOf files).countP (fun e => e.severity == .error)

/-- `warningCount` of the dashboard. -/
def warningCount (files : ReportFiles) : Nat :=
  (allErrorsOf files).countP (fun e => e.severity == .warning)

/-- `totalRows` of the dashboard: `reduce((sum, file) => sum + file.data.length, 0)`. -/
def totalRows (files : ReportFiles) : Nat :=
  files.foldl (fun sum f => sum + f.data.length) 0

/-- `validationScore` of the dashboard:
`totalRows > 0 ? Math.max(0, 100 - ((errorCount * 10 + warningCount * 2) / totalRows * 100)) : 100`. -/
def validationScore (files : ReportFiles) : Rat :=
  if totalRows files > 0 then
    max 0 (100 - (((errorCount files : Rat) * 10 + (warningCount files : Rat) * 2) /
      (totalRows files : Rat) * 100))
  else 100

/-- `Math.round`: round half toward positive infinity. -/
def jsMathRound (q : Rat) : Int := ⌊q + 1 / 2⌋

/-- `Math.round(validationScore)` as written to the exported report's
`summary.validationScore` by `exportDetailedReport`. -/
def exportedValidationScore (files : ReportFiles) : Int :=
  jsMathRound (validationScore files)

/-- Modelled from the spec: the score formula the spec prescribes for
reporting collaborators, `max(0, 100 - (errorCount*10 + warningCount*2)
/ totalRows * 100)`, stated on exact rationals. -/
def specScoreFormula (errCnt warnCnt rows : Nat) : Rat :=
  max 0 (100 - ((errCnt : Rat) * 10 + (warnCnt : Rat) * 2) / (rows : Rat) * 100)

/-- Is the value an array object?  Array values are compared by
reference in JS, which the structural embedding cannot represent, so
the duplicate-group characterization below assumes the tracked column
holds non-array values (always true of parsed CSV rows). -/
def isArrVal : JSValue → Bool
  | .vArr _ => true
  | _ => false

/-- The row indices (counted from `i`) whose `ClientID` value is truthy
and strictly equal to `v` — the reference description of one duplicate
group under the built-in registry. -/
def clientMatches (v : JSValue) : List JSRow → Nat → List Nat
  | [], _ => []
  | row :: rest, i =>
    (if truthy (rowGet row "ClientID") && jsStrictEq (rowGet row "ClientID") v
     then [i] else []) ++ clientMatches v rest (i + 1)

/-- Reference description of the duplicate tracker under the built-in
registry: walking the rows from index `i`, a row whose `ClientID` is
truthy and matches no already-seen key opens a new group holding every
later matching row index; `seen` holds the keys opened so far. -/
def freshTracker : List JSRow → Nat → List JSValue → Tracker
  | [], _, _ => []
  | row :: rest, i, seen =>
    let w := rowGet row "ClientID"
    if truthy w && !(seen.any (fun k => jsStrictEq k w)) then
      (w, clientMatches w (row :: rest) i) :: freshTracker rest (i + 1) (w :: seen)
    else freshTracker rest (i + 1) seen

/-- C2 (amended): for every rule of type `required`, `validateField`
returns an error exactly when the value is JS-falsy (absent,
`null`, empty string, the number `0`, `false`) or its string coercion
trims to the empty string; the error carries the rule's field, message,
severity and id. -/
theorem required_rule_error_iff (rule : ValidationRule) (hty : rule.type = .required)
    (v : JSValue) (i : Nat) (row : JSRow) (files : Option Dataset) :
    validateField v rule i row files =
      .ok (if truthy v && !(jsTrim (jsToString v) == "") then none
           else some ⟨i, rule.field, rule.message, rule.severity, rule.id⟩) := by
  simp only [validateField, hty]
  cases htv : truthy v <;> cases hte : jsTrim (jsToString v) == "" <;> simp

/-- Witness for `required_rule_error_iff`: a whitespace-only `Name`
under the built-in required rule yields the `req-client-name` error. -/
theorem required_rule_error_iff_witness :
    validateField (.vStr "   ")
      ⟨"req-client-name", "Required Client Name", .required, "Name",
       "Client name is required", .error, none⟩
      0 [("Name", .vStr "   ")] none =
      .ok (some ⟨0, "Name", "Client name is required", .error, "req-client-name"⟩) :=
  (required_rule_error_iff
    ⟨"req-client-name", "Required Client Name", .required, "Name",
     "Client name is required", .error, none⟩
    rfl (.vStr "   ") 0 [("Name", .vStr "   ")] none).trans (by rfl)

/-- C2 (counterexample): the number `0` is neither absent, `null`, nor
an empty string after trimming (it trims to `"0"`), yet the required
rule flags it — JS truthiness (`!value`) rejects `0`. -/
theorem required_rule_flags_numeric_zero :
    validateField (.vNum ⟨0, 0⟩)
      ⟨"req-client-name", "Required Client Name", .required, "Name",
       "Client name is required", .error, none⟩
      0 [("Name", .vNum ⟨0, 0⟩)] none =
      .ok (some ⟨0, "Name", "Client name is required", .error, "req-client-name"⟩) ∧
    jsTrim (jsToString (JSValue.vNum ⟨0, 0⟩)) = "0" :=
  ⟨rfl, rfl⟩

/-- C10: when `validateData` is called without the optional dataset
argument, a reference-type rule never produces an error, whatever the
field value. -/
theorem reference_rule_no_dataset_no_error (rule : ValidationRule)
    (hty : rule.type = .reference) (v : JSValue) (i : Nat) (row : JSRow) :
    validateField v rule i row none = .ok none := by
  simp only [validateField, hty]
  cases truthy v <;> simp

/-- Witness for `reference_rule_no_dataset_no_error`: a broken
reference value validates clean standalone. -/
theorem reference_rule_no_dataset_no_error_witness :
    validateField (.vStr "[\"ZZZ\"]")
      ⟨"task-reference", "Task References", .reference, "TaskIDs",
       "Referenced task ID not found", .error, none⟩
      0 [] none = .ok none :=
  reference_rule_no_dataset_no_error
    ⟨"task-reference", "Task References", .reference, "TaskIDs",
     "Referenced task ID not found", .error, none⟩
    rfl (.vStr "[\"ZZZ\"]") 0 []

/-- C7: a range rule with configured bounds is skipped when the value
does not parse as a number, errs with the bounds interpolated into the
message when the parsed number lies outside the inclusive interval, and
passes otherwise. -/
theorem range_rule_eval (rule : ValidationRule) (cfg : RuleConfig) (mn mx : JSNum)
    (hty : rule.type = .range) (hcfg : rule.config = some cfg)
    (hmn : cfg.min = some mn) (hmx : cfg.max = some mx)
    (v : JSValue) (i : Nat) (row : JSRow) (files : Option Dataset) :
    validateField v rule i row files =
      .ok (match jsParseFloat v with
           | none => none
           | some n =>
             if jsNumLt n mn || jsNumLt mx n then
               some ⟨i, rule.field,
                 rule.message ++ " (" ++ jsNumToString mn ++ "-" ++ jsNumToString mx ++ ")",
                 rule.severity, rule.id⟩
             else none) := by
  simp only [validateField, hty, hcfg]
  cases hpf : jsParseFloat v with
  | none => rfl
  | some n =>
    simp only [hmn, hmx, jsLtOpt, jsGtOpt, optNumToString]
    cases jsNumLt n mn || jsNumLt mx n <;> simp

/-- Witness for `range_rule_eval`: `CurrentLoad = "150"` yields the
`worker-load-range` warning with `(0-100)` in the message, while
`CurrentLoad = "abc"` is skipped. -/
theorem range_rule_eval_witness :
    validateField (.vStr "150")
      ⟨"worker-load-range", "Worker Load Range", .range, "CurrentLoad",
       "Current load exceeds maximum capacity", .warning, some ⟨some ⟨0, 0⟩, some ⟨100, 0⟩, none⟩⟩
      0 [] none =
      .ok (some ⟨0, "CurrentLoad", "Current load exceeds maximum capacity (0-100)",
        .warning, "worker-load-range"⟩) ∧
    validateField (.vStr "abc")
      ⟨"worker-load-range", "Worker Load Range", .range, "CurrentLoad",
       "Current load exceeds maximum capacity", .warning, some ⟨some ⟨0, 0⟩, some ⟨100, 0⟩, none⟩⟩
      0 [] none = .ok none :=
  ⟨(range_rule_eval _ ⟨some ⟨0, 0⟩, some ⟨100, 0⟩, none⟩ ⟨0, 0⟩ ⟨100, 0⟩ rfl rfl rfl rfl
      (.vStr "150") 0 [] none).trans (by rfl),
   (range_rule_eval _ ⟨some ⟨0, 0⟩, some ⟨100, 0⟩, none⟩ ⟨0, 0⟩ ⟨100, 0⟩ rfl rfl rfl rfl
      (.vStr "abc") 0 [] none).trans (by rfl)⟩

/-- C6: a reference rule with a present value and a dataset parses the
value via `parseJsonArray` (parse failure degrades to the empty list),
checks each parsed id against the task-id set, and emits exactly one
error listing all invalid ids comma-joined in original order with
duplicates preserved — or nothing when every id is valid. -/
theorem reference_rule_eval (rule : ValidationRule) (hty : rule.type = .reference)
    (v : JSValue) (i : Nat) (row : JSRow) (files : Dataset) (ids : List JSValue)
    (htv : truthy v = true) (hparse : parseJsonArray v = .vArr ids) :
    validateField v rule i row (some files) =
      .ok (if (ids.filter (fun id =>
              !((getAllTaskIds files).any (fun t => jsStrictEq t id)))).length > 0 then
            some ⟨i, rule.field,
              rule.message ++ ": " ++ String.intercalate ", "
                ((ids.filter (fun id =>
                  !((getAllTaskIds files).any (fun t => jsStrictEq t id)))).map
                  jsArrElemString),
              rule.severity, rule.id⟩
           else none) := by
  simp only [validateField, hty, htv, hparse]
  by_cases h : (ids.filter (fun id =>
      !((getAllTaskIds files).any (fun t => jsStrictEq t id)))).length > 0 <;>
    simp [h]

/-- Witness for `reference_rule_eval`: `TaskIDs = '["T1","T9"]'`
against a `tasks.csv` with task ids `T1, T2` errs mentioning exactly
`T9`; a malformed value parses to the empty list and passes. -/
theorem reference_rule_eval_witness :
    validateField (.vStr "[\"T1\",\"T9\"]")
      ⟨"task-reference", "Task References", .reference, "TaskIDs",
       "Referenced task ID not found", .error, none⟩
      0 [] (some [⟨"tasks.csv", [[("TaskID", .vStr "T1")], [("TaskID", .vStr "T2")]]⟩]) =
      .ok (some ⟨0, "TaskIDs", "Referenced task ID not found: T9", .error,
        "task-reference"⟩) ∧
    validateField (.vStr "not json")
      ⟨"task-reference", "Task References", .reference, "TaskIDs",
       "Referenced task ID not found", .error, none⟩
      0 [] (some [⟨"tasks.csv", [[("TaskID", .vStr "T1")], [("TaskID", .vStr "T2")]]⟩]) =
      .ok none :=
  ⟨(reference_rule_eval _ rfl (.vStr "[\"T1\",\"T9\"]") 0 []
      [⟨"tasks.csv", [[("TaskID", .vStr "T1")], [("TaskID", .vStr "T2")]]⟩]
      [.vStr "T1", .vStr "T9"] rfl rfl).trans (by rfl),
   (reference_rule_eval _ rfl (.vStr "not json") 0 []
      [⟨"tasks.csv", [[("TaskID", .vStr "T1")], [("TaskID", .vStr "T2")]]⟩]
      [] rfl rfl).trans (by rfl)⟩

/-- C1: the engine is not total — a truthy non-string `PhoneNumber`
makes the phone rule call `.replace` on a non-string (a thrown
`TypeError`), and a reference value whose JSON parse yields a truthy
non-array makes the reference rule call `.filter` on it (a thrown
`TypeError`); `validateData` propagates both instead of degrading. -/
theorem validate_throws_on_malformed_values :
    validateData builtinRules [[("PhoneNumber", .vNum ⟨123, 0⟩)]] [] "clients.csv" none =
      .error (.typeError "value.replace is not a function") ∧
    validateData builtinRules [[("TaskIDs", .vStr "123")]] [] "clients.csv"
        (some [⟨"tasks.csv", []⟩]) =
      .error (.typeError "taskIds.filter is not a function") :=
  ⟨rfl, rfl⟩

/-- C4: with a second duplicate-type rule (`dup-x` on field `X`) added
to the registry, the duplicate errors for `X` values still come out
with the hard-coded column `ClientID` and ruleId `duplicate-ids` —
not the added rule's own field and id. -/
theorem duplicate_rules_share_hardcoded_output :
    validateData
      (builtinRules ++ [⟨"dup-x", "Duplicate X", .duplicate, "X",
        "Duplicate X found", .error, none⟩])
      [[("X", .vStr "V"), ("Name", .vStr "a")],
       [("X", .vStr "V"), ("Name", .vStr "b")]]
      [] "widgets.csv" none =
      .ok [⟨0, "ClientID", "Duplicate ID \"V\" found in rows 1, 2", .error,
             "duplicate-ids"⟩,
           ⟨1, "ClientID", "Duplicate ID \"V\" found in rows 1, 2", .error,
             "duplicate-ids"⟩] ∧
    ("ClientID" : String) ≠ "X" ∧ ("duplicate-ids" : String) ≠ "dup-x" :=
  ⟨rfl, by decide, by decide⟩

/-- C9: wherever the dashboard's `totalRows` is positive, its
`validationScore` equals the spec's
`max(0, 100 - (errorCount*10 + warningCount*2) / totalRows * 100)` and
the exported report's score is that value rounded (`Math.round`). -/
theorem validation_score_matches_spec (files : ReportFiles)
    (h : 0 < totalRows files) :
    validationScore files =
      specScoreFormula (errorCount files) (warningCount files) (totalRows files) ∧
    exportedValidationScore files =
      jsMathRound (specScoreFormula (errorCount files) (warningCount files)
        (totalRows files)) := by
  have hs : validationScore files =
      specScoreFormula (errorCount files) (warningCount files) (totalRows files) := by
    simp [validationScore, specScoreFormula, h]
  exact ⟨hs, by simp [exportedValidationScore, hs]⟩

/-- Witness for `validation_score_matches_spec`: two rows, one error,
no warnings. -/
theorem validation_score_matches_spec_witness :
    validationScore [⟨"clients.csv", [[], []], [⟨0, "Name", "m", .error, "r"⟩]⟩] =
      specScoreFormula
        (errorCount [⟨"clients.csv", [[], []], [⟨0, "Name", "m", .error, "r"⟩]⟩])
        (warningCount [⟨"clients.csv", [[], []], [⟨0, "Name", "m", .error, "r"⟩]⟩])
        (totalRows [⟨"clients.csv", [[], []], [⟨0, "Name", "m", .error, "r"⟩]⟩]) ∧
    exportedValidationScore [⟨"clients.csv", [[], []], [⟨0, "Name", "m", .error, "r"⟩]⟩] =
      jsMathRound (specScoreFormula
        (errorCount [⟨"clients.csv", [[], []], [⟨0, "Name", "m", .error, "r"⟩]⟩])
        (warningCount [⟨"clients.csv", [[], []], [⟨0, "Name", "m", .error, "r"⟩]⟩])
        (totalRows [⟨"clients.csv", [[], []], [⟨0, "Name", "m", .error, "r"⟩]⟩])) :=
  validation_score_matches_spec
    [⟨"clients.csv", [[], []], [⟨0, "Name", "m", .error, "r"⟩]⟩] (by decide)

/-- C8: the `validateData` method leaves the engine state untouched and
its output is a function of the rule list and arguments alone — two
calls on engines with identical rule lists and identical arguments
return identical error lists. -/
theorem validate_pure_and_deterministic (s s' : EngineState) (data : List JSRow)
    (headers : List String) (fileName : String) (files : Option Dataset)
    (h : s'.rules = s.rules) :
    validateDataM s data headers fileName files =
      (validateData s.rules data headers fileName files, s) ∧
    (validateDataM s' data headers fileName files).1 =
      (validateDataM s data headers fileName files).1 :=
  ⟨rfl, by simp [validateDataM, h]⟩

/-- Splitting the inner fold of `validateData`: the error accumulator is
extended by the row's own errors and the tracker updates are
independent of the error results. -/
theorem runRules_decomp (row : JSRow) (i : Nat) (files : Option Dataset)
    (rules : List ValidationRule) (errs : List ValidationError) (tr : Tracker) :
    runRules row i files rules errs tr =
      (rowErrs row i files rules).map
        (fun es => (errs ++ es, rulesTracker row i rules tr)) := by
  induction rules generalizing errs tr with
  | nil => simp [runRules, rowErrs, rulesTracker, Except.map]
  | cons rule rest ih =>
    simp only [runRules, rowErrs, rulesTracker]
    cases validateField (rowGet row rule.field) rule i row files with
    | error e => simp [Except.map]
    | ok errOpt =>
      dsimp only
      rw [ih]
      cases rowErrs row i files rest with
      | error e => simp [Except.map]
      | ok es => cases errOpt <;> simp [Except.map]

/-- Splitting the outer fold of `validateData` likewise. -/
theorem runRows_decomp (rules : List ValidationRule) (files : Option Dataset)
    (data : List JSRow) (i : Nat) (errs : List ValidationError) (tr : Tracker) :
    runRows rules files data i errs tr =
      (perRowErrs rules files data i).map
        (fun es => (errs ++ es, buildTrackerAux rules data i tr)) := by
  induction data generalizing i errs tr with
  | nil => simp [runRows, perRowErrs, buildTrackerAux, Except.map]
  | cons row rest ih =>
    simp only [runRows, perRowErrs, buildTrackerAux]
    rw [runRules_decomp]
    cases rowErrs row i files rules with
    | error e => simp [Except.map]
    | ok es =>
      simp only [Except.map]
      rw [ih]
      cases perRowErrs rules files rest (i + 1) with
      | error e => simp [Except.map]
      | ok es2 => simp [Except.map]

/-- `validateData` is the per-row error pass followed by the appended
duplicate post-pass. -/
theorem validateData_decomp (rules : List ValidationRule) (data : List JSRow)
    (headers : List String) (fileName : String) (files : Option Dataset) :
    validateData rules data headers fileName files =
      (perRowErrs rules files data 0).map
        (fun es => es ++ dupPhase (buildTracker rules data)) := by
  simp only [validateData, buildTracker]
  rw [runRows_decomp]
  cases perRowErrs rules files data 0 <;> simp [Except.map]

/-- Pushing the current row index keeps every tracked index bounded by
it. -/
theorem trackerPush_bound (tr : Tracker) (v : JSValue) (i : Nat)
    (h : ∀ p ∈ tr, ∀ j ∈ p.2, j ≤ i) :
    ∀ p ∈ trackerPush tr v i, ∀ j ∈ p.2, j ≤ i := by
  intro p hp j hj
  unfold trackerPush at hp
  split at hp
  · rcases List.mem_map.1 hp with ⟨q, hq, rfl⟩
    by_cases hc : jsStrictEq q.1 v = true
    · rw [if_pos hc] at hj
      rcases List.mem_append.1 hj with hj | hj
      · exact h q hq j hj
      · simp at hj; omega
    · rw [if_neg hc] at hj
      exact h q hq j hj
  · rcases List.mem_append.1 hp with hp | hp
    · exact h p hp j hj
    · simp at hp
      subst hp
      simp at hj
      omega

/-- Pushing the current row index onto a bounded chain keeps every
group a nondecreasing chain. -/
theorem trackerPush_chain (tr : Tracker) (v : JSValue) (i : Nat)
    (hle : ∀ p ∈ tr, ∀ j ∈ p.2, j ≤ i)
    (hch : ∀ p ∈ tr, List.Chain' (· ≤ ·) p.2) :
    ∀ p ∈ trackerPush tr v i, List.Chain' (· ≤ ·) p.2 := by
  intro p hp
  unfold trackerPush at hp
  split at hp
  · rcases List.mem_map.1 hp with ⟨q, hq, rfl⟩
    by_cases hc : jsStrictEq q.1 v = true
    · rw [if_pos hc]
      refine List.chain'_append.2 ⟨hch q hq, List.chain'_singleton i, ?_⟩
      intro x hx y hy
      simp at hy
      subst hy
      obtain ⟨hne, hxe⟩ := List.mem_getLast?_eq_getLast hx
      subst hxe
      exact hle q hq _ (List.getLast_mem hne)
    · rw [if_neg hc]
      exact hch q hq
  · rcases List.mem_append.1 hp with hp | hp
    · exact hch p hp
    · simp at hp
      subst hp
      simp

/-- One row's tracker updates preserve the bound and chain invariants. -/
theorem rulesTracker_inv (row : JSRow) (i : Nat) :
    ∀ (rules : List ValidationRule) (tr : Tracker),
    (∀ p ∈ tr, ∀ j ∈ p.2, j ≤ i) → (∀ p ∈ tr, List.Chain' (· ≤ ·) p.2) →
    (∀ p ∈ rulesTracker row i rules tr, ∀ j ∈ p.2, j ≤ i) ∧
    (∀ p ∈ rulesTracker row i rules tr, List.Chain' (· ≤ ·) p.2)
  | [], _, hle, hch => ⟨hle, hch⟩
  | rule :: rest, tr, hle, hch => by
    simp only [rulesTracker]
    split
    · exact rulesTracker_inv row i rest _
        (trackerPush_bound _ _ _ hle) (trackerPush_chain _ _ _ hle hch)
    · exact rulesTracker_inv row i rest tr hle hch

/-- Every group of the final tracker is a nondecreasing chain of row
indices. -/
theorem buildTrackerAux_chain (rules : List ValidationRule) :
    ∀ (data : List JSRow) (i : Nat) (tr : Tracker),
    (∀ p ∈ tr, ∀ j ∈ p.2, j ≤ i) → (∀ p ∈ tr, List.Chain' (· ≤ ·) p.2) →
    ∀ p ∈ buildTrackerAux rules data i tr, List.Chain' (· ≤ ·) p.2
  | [], _, tr, _, hch => by simpa [buildTrackerAux] using hch
  | row :: rest, i, tr, hle, hch => by
    simp only [buildTrackerAux]
    have h := rulesTracker_inv row i rules tr hle hch
    exact buildTrackerAux_chain rules rest (i + 1) _
      (fun p hp j hj => Nat.le_succ_of_le (h.1 p hp j hj)) h.2

/-- C5: the error list of `validateData` is exactly the per-row errors
(outer loop over rows in table order, inner loop over rules in registry
order — that is `perRowErrs`) followed by the duplicate-aggregate
errors appended after; and every duplicate group lists its row indices
in ascending order.  All structures involved are deterministic
association lists (the iteration order of a JS `Map` is its insertion
order), so the output depends on nothing but row order, registry order
and the group order. -/
theorem validate_output_order (rules : List ValidationRule) (data : List JSRow)
    (headers : List String) (fileName : String) (files : Option Dataset) :
    validateData rules data headers fileName files =
      (perRowErrs rules files data 0).map
        (fun es => es ++ dupPhase (buildTracker rules data)) ∧
    ∀ p ∈ buildTracker rules data, List.Chain' (· ≤ ·) p.2 :=
  ⟨validateData_decomp rules data headers fileName files,
   buildTrackerAux_chain rules data 0 [] (by simp) (by simp)⟩

/-- Witness for `validate_output_order`: a three-row table whose first
and third rows share `ClientID = "C1"`. -/
theorem validate_output_order_witness :
    validateData builtinRules
      [[("ClientID", .vStr "C1")], [], [("ClientID", .vStr "C1")]]
      [] "clients.csv" none =
      (perRowErrs builtinRules none
        [[("ClientID", .vStr "C1")], [], [("ClientID", .vStr "C1")]] 0).map
        (fun es => es ++ dupPhase (buildTracker builtinRules
          [[("ClientID", .vStr "C1")], [], [("ClientID", .vStr "C1")]])) ∧
    List.Chain' (· ≤ ·) [0, 2] :=
  ⟨(validate_output_order builtinRules
      [[("ClientID", .vStr "C1")], [], [("ClientID", .vStr "C1")]]
      [] "clients.csv" none).1,
   (validate_output_order builtinRules
      [[("ClientID", .vStr "C1")], [], [("ClientID", .vStr "C1")]]
      [] "clients.csv" none).2
     (JSValue.vStr "C1", [0, 2]) (List.Mem.head _)⟩

/-- Witness for `validate_pure_and_deterministic`: two fresh engines. -/
theorem validate_pure_and_deterministic_witness :
    validateDataM initialEngine [[("Name", .vStr "a")]] ["Name"] "clients.csv" none =
      (validateData initialEngine.rules [[("Name", .vStr "a")]] ["Name"] "clients.csv" none,
       initialEngine) ∧
    (validateDataM ⟨builtinRules⟩ [[("Name", .vStr "a")]] ["Name"] "clients.csv" none).1 =
      (validateDataM initialEngine [[("Name", .vStr "a")]] ["Name"] "clients.csv" none).1 :=
  validate_pure_and_deterministic initialEngine ⟨builtinRules⟩
    [[("Name", .vStr "a")]] ["Name"] "clients.csv" none rfl

/-- `==` is symmetric for lawful `BEq` types. -/
theorem beqComm {α : Type} [BEq α] [LawfulBEq α] (a b : α) : (a == b) = (b == a) := by
  by_cases h : a = b
  · subst h; rfl
  · rw [beq_eq_false_iff_ne.mpr h, beq_eq_false_iff_ne.mpr (Ne.symm h)]

/-- Numeric equality of decimals is reflexive. -/
theorem jsNumEq_refl (a : JSNum) : jsNumEq a a = true := by simp [jsNumEq]

/-- Numeric equality of decimals is symmetric. -/
theorem jsNumEq_symm (a b : JSNum) : jsNumEq a b = jsNumEq b a := beqComm _ _

/-- Numeric equality of decimals is transitive (cross-multiplication
cancels the positive middle denominator). -/
theorem jsNumEq_trans {a b c : JSNum} (h1 : jsNumEq a b = true)
    (h2 : jsNumEq b c = true) : jsNumEq a c = true := by
  simp only [jsNumEq, beq_iff_eq] at h1 h2 ⊢
  have hb : ((10 ^ b.den10 : Nat) : Int) ≠ 0 := by positivity
  apply mul_right_cancel₀ hb
  calc a.num * ((10 ^ c.den10 : Nat) : Int) * ((10 ^ b.den10 : Nat) : Int)
      = a.num * ((10 ^ b.den10 : Nat) : Int) * ((10 ^ c.den10 : Nat) : Int) := by ring
    _ = b.num * ((10 ^ a.den10 : Nat) : Int) * ((10 ^ c.den10 : Nat) : Int) := by rw [h1]
    _ = b.num * ((10 ^ c.den10 : Nat) : Int) * ((10 ^ a.den10 : Nat) : Int) := by ring
    _ = c.num * ((10 ^ b.den10 : Nat) : Int) * ((10 ^ a.den10 : Nat) : Int) := by rw [h2]
    _ = c.num * ((10 ^ a.den10 : Nat) : Int) * ((10 ^ b.den10 : Nat) : Int) := by ring

/-- Strict equality is symmetric. -/
theorem jsStrictEq_symm (a b : JSValue) : jsStrictEq a b = jsStrictEq b a := by
  cases a <;> cases b <;> simp only [jsStrictEq] <;> first | rfl | exact beqComm _ _

/-- Strict equality is reflexive on non-array values. -/
theorem jsStrictEq_refl (v : JSValue) (h : isArrVal v = false) :
    jsStrictEq v v = true := by
  cases v <;> simp_all [jsStrictEq, jsNumEq_refl, isArrVal]

/-- Strict equality is transitive. -/
theorem jsStrictEq_trans {a b c : JSValue} (h1 : jsStrictEq a b = true)
    (h2 : jsStrictEq b c = true) : jsStrictEq a c = true := by
  cases a <;> cases b <;> cases c <;> simp_all [jsStrictEq]
  exact jsNumEq_trans h1 h2

/-- The indices produced by `clientMatches` are strictly increasing and
at least the starting index. -/
theorem clientMatches_chain (v : JSValue) :
    ∀ (rest : List JSRow) (i : Nat),
    List.Chain' (· < ·) (clientMatches v rest i) ∧
      ∀ j ∈ clientMatches v rest i, i ≤ j
  | [], i => by simp [clientMatches]
  | row :: rest, i => by
    have ih := clientMatches_chain v rest (i + 1)
    simp only [clientMatches]
    split
    · simp only [List.singleton_append]
      refine ⟨List.chain'_cons'.2 ⟨?_, ih.1⟩, ?_⟩
      · intro y hy
        have hym := ih.2 y (List.mem_of_mem_head? hy)
        omega
      · intro j hj
        rcases List.mem_cons.1 hj with rfl | hj
        · omega
        · have := ih.2 j hj; omega
    · simp only [List.nil_append]
      exact ⟨ih.1, fun j hj => by have := ih.2 j hj; omega⟩

/-- A row whose value is truthy and strictly equal to `v` contributes
its index to `clientMatches v` (`getD` form: an out-of-range index
reads as the empty row, whose `ClientID` is falsy). -/
theorem clientMatches_getD (v : JSValue) :
    ∀ (rest : List JSRow) (i k : Nat),
    (truthy (rowGet (rest.getD k []) "ClientID") &&
      jsStrictEq (rowGet (rest.getD k []) "ClientID") v) = true →
    (i + k) ∈ clientMatches v rest i
  | [], i, k, h => by simp [rowGet, truthy] at h
  | row :: rest, i, 0, h => by
    simp only [List.getD_cons_zero] at h
    simp only [clientMatches]
    rw [if_pos h]
    simp
  | row :: rest, i, k + 1, h => by
    simp only [clientMatches]
    have hmem := clientMatches_getD v rest (i + 1) k (by simpa using h)
    have h2 : i + (k + 1) = (i + 1) + k := by omega
    rw [h2]
    exact List.mem_append_right _ hmem

/-- `any` over the projected keys of a tracker. -/
theorem any_map_key (tr : Tracker) (p : JSValue → Bool) :
    (tr.map (fun q => q.1)).any p = tr.any (fun q => p q.1) := by
  induction tr with
  | nil => rfl
  | cons q tr ih => simp [List.any_cons, ih]

/-- Under the built-in registry only the `duplicate-ids` rule (field
`ClientID`) updates the tracker. -/
theorem rulesTracker_builtin (row : JSRow) (i : Nat) (tr : Tracker) :
    rulesTracker row i builtinRules tr =
      if truthy (rowGet row "ClientID") then
        trackerPush tr (rowGet row "ClientID") i
      else tr := rfl

/-- `freshTracker` reads `seen` only through key matching. -/
theorem freshTracker_congr :
    ∀ (rest : List JSRow) (i : Nat) (seen1 seen2 : List JSValue),
    (∀ w, seen1.any (fun k => jsStrictEq k w) = seen2.any (fun k => jsStrictEq k w)) →
    freshTracker rest i seen1 = freshTracker rest i seen2
  | [], _, _, _, _ => rfl
  | row :: rest, i, seen1, seen2, h => by
    simp only [freshTracker]
    rw [h (rowGet row "ClientID")]
    split
    · rw [freshTracker_congr rest (i + 1) (rowGet row "ClientID" :: seen1)
        (rowGet row "ClientID" :: seen2) (fun w => by simp [h w])]
    · exact freshTracker_congr rest (i + 1) _ _ h

/-- The tracker built by `validateData` under the built-in registry,
relative to an arbitrary starting tracker: every existing group is
extended by its later matches, and fresh first-occurrence groups are
appended. -/
theorem buildTrackerAux_builtin :
    ∀ (rest : List JSRow) (i : Nat) (tr : Tracker),
    (∀ row ∈ rest, isArrVal (rowGet row "ClientID") = false) →
    buildTrackerAux builtinRules rest i tr =
      tr.map (fun p => (p.1, p.2 ++ clientMatches p.1 rest i)) ++
        freshTracker rest i (tr.map (fun p => p.1))
  | [], i, tr, _ => by
    simp [buildTrackerAux, clientMatches, freshTracker]
  | row :: rest, i, tr, harr => by
    have hw : isArrVal (rowGet row "ClientID") = false :=
      harr row (List.mem_cons_self _ _)
    have hrest : ∀ r ∈ rest, isArrVal (rowGet r "ClientID") = false :=
      fun r hr => harr r (List.mem_cons_of_mem _ hr)
    simp only [buildTrackerAux, rulesTracker_builtin]
    by_cases ht : truthy (rowGet row "ClientID") = true
    · rw [if_pos ht]
      unfold trackerPush
      by_cases hc : tr.any (fun p => jsStrictEq p.1 (rowGet row "ClientID")) = true
      · rw [if_pos hc]
        rw [buildTrackerAux_builtin rest (i + 1) _ hrest]
        have hany : (tr.map (fun p => p.1)).any
            (fun k => jsStrictEq k (rowGet row "ClientID")) = true := by
          rw [any_map_key]
          exact hc
        have hkeys : (tr.map (fun p =>
            if jsStrictEq p.1 (rowGet row "ClientID") then (p.1, p.2 ++ [i]) else p)).map
              (fun p => p.1) = tr.map (fun p => p.1) := by
          rw [List.map_map]
          apply List.map_congr_left
          intro p _
          by_cases h : jsStrictEq p.1 (rowGet row "ClientID") = true <;>
            simp [Function.comp, h]
        have hmap : (tr.map (fun p =>
            if jsStrictEq p.1 (rowGet row "ClientID") then (p.1, p.2 ++ [i]) else p)).map
              (fun p => (p.1, p.2 ++ clientMatches p.1 rest (i + 1))) =
            tr.map (fun p => (p.1, p.2 ++ clientMatches p.1 (row :: rest) i)) := by
          rw [List.map_map]
          apply List.map_congr_left
          intro p _
          by_cases h : jsStrictEq p.1 (rowGet row "ClientID") = true
          · have hsym : jsStrictEq (rowGet row "ClientID") p.1 = true := by
              rw [jsStrictEq_symm]
              exact h
            simp [Function.comp, h, clientMatches, ht, hsym]
          · have hsym : jsStrictEq (rowGet row "ClientID") p.1 = false := by
              rw [jsStrictEq_symm, Bool.eq_false_iff]
              exact h
            simp [Function.comp, h, clientMatches, ht, hsym]
        have hfresh : freshTracker (row :: rest) i (tr.map (fun p => p.1)) =
            freshTracker rest (i + 1) (tr.map (fun p => p.1)) := by
          simp only [freshTracker]
          rw [if_neg (by simp [hany, ht])]
        rw [hkeys, hmap, hfresh]
      · rw [if_neg hc]
        rw [buildTrackerAux_builtin rest (i + 1) _ hrest]
        have hcf : tr.any (fun p => jsStrictEq p.1 (rowGet row "ClientID")) = false :=
          Bool.eq_false_iff.mpr hc
        have hany : (tr.map (fun p => p.1)).any
            (fun k => jsStrictEq k (rowGet row "ClientID")) = false := by
          rw [any_map_key]
          exact hcf
        have hnone : ∀ p ∈ tr, jsStrictEq p.1 (rowGet row "ClientID") = false := by
          intro p hp
          by_contra hne
          exact hc (List.any_eq_true.2 ⟨p, hp, by simpa using hne⟩)
        have hmap : (tr ++ [(rowGet row "ClientID", [i])]).map
            (fun p => (p.1, p.2 ++ clientMatches p.1 rest (i + 1))) =
            tr.map (fun p => (p.1, p.2 ++ clientMatches p.1 (row :: rest) i)) ++
              [(rowGet row "ClientID",
                [i] ++ clientMatches (rowGet row "ClientID") rest (i + 1))] := by
          rw [List.map_append]
          congr 1
          apply List.map_congr_left
          intro p hp
          have hsym : jsStrictEq (rowGet row "ClientID") p.1 = false := by
            rw [jsStrictEq_symm]
            exact hnone p hp
          simp [clientMatches, ht, hsym]
        have hfresh : freshTracker (row :: rest) i (tr.map (fun p => p.1)) =
            (rowGet row "ClientID",
              clientMatches (rowGet row "ClientID") (row :: rest) i) ::
              freshTracker rest (i + 1)
                (rowGet row "ClientID" :: tr.map (fun p => p.1)) := by
          conv_lhs => rw [freshTracker]
          rw [if_pos (by simp [hany, ht])]
        have hseen : freshTracker rest (i + 1)
            ((tr ++ [(rowGet row "ClientID", [i])]).map (fun p => p.1)) =
            freshTracker rest (i + 1)
              (rowGet row "ClientID" :: tr.map (fun p => p.1)) := by
          rw [List.map_append]
          apply freshTracker_congr
          intro w
          simp [List.any_append, Bool.or_comm]
        rw [hmap, hseen, hfresh]
        have hcm : clientMatches (rowGet row "ClientID") (row :: rest) i =
            [i] ++ clientMatches (rowGet row "ClientID") rest (i + 1) := by
          simp [clientMatches, ht, jsStrictEq_refl _ hw]
        rw [hcm]
        simp
    · rw [if_neg ht]
      rw [buildTrackerAux_builtin rest (i + 1) tr hrest]
      have htf : truthy (rowGet row "ClientID") = false := Bool.eq_false_iff.mpr ht
      have hmap : tr.map (fun p => (p.1, p.2 ++ clientMatches p.1 rest (i + 1))) =
          tr.map (fun p => (p.1, p.2 ++ clientMatches p.1 (row :: rest) i)) := by
        apply List.map_congr_left
        intro p _
        simp [clientMatches, htf]
      have hfresh : freshTracker (row :: rest) i (tr.map (fun p => p.1)) =
          freshTracker rest (i + 1) (tr.map (fun p => p.1)) := by
        simp only [freshTracker]
        rw [if_neg (by simp [htf])]
      rw [hmap, hfresh]

/-- The engine's duplicate tracker equals the spec-side reference
construction. -/
theorem buildTracker_builtin (data : List JSRow)
    (harr : ∀ row ∈ data, isArrVal (rowGet row "ClientID") = false) :
    buildTracker builtinRules data = freshTracker data 0 [] := by
  have h := buildTrackerAux_builtin data 0 [] harr
  simpa [buildTracker] using h

/-- Every entry of the reference tracker has a truthy key unmatched by
`seen`, and its group is the full match list from the call point on,
which is non-empty. -/
theorem freshTracker_mem :
    ∀ (rest : List JSRow) (i : Nat) (seen : List JSValue),
    (∀ row ∈ rest, isArrVal (rowGet row "ClientID") = false) →
    ∀ v g, (v, g) ∈ freshTracker rest i seen →
      truthy v = true ∧ seen.any (fun k => jsStrictEq k v) = false ∧
      g = clientMatches v rest i ∧ g ≠ []
  | [], _, _, _, _, _, h => by simp [freshTracker] at h
  | row :: rest, i, seen, harr, v, g, h => by
    have hw : isArrVal (rowGet row "ClientID") = false :=
      harr row (List.mem_cons_self _ _)
    have hrest : ∀ r ∈ rest, isArrVal (rowGet r "ClientID") = false :=
      fun r hr => harr r (List.mem_cons_of_mem _ hr)
    simp only [freshTracker] at h
    by_cases hcond : (truthy (rowGet row "ClientID") &&
        !(seen.any (fun k => jsStrictEq k (rowGet row "ClientID")))) = true
    · rw [if_pos hcond] at h
      rw [Bool.and_eq_true] at hcond
      obtain ⟨ht, hs⟩ := hcond
      have hsf : seen.any (fun k => jsStrictEq k (rowGet row "ClientID")) = false := by
        cases hx : seen.any (fun k => jsStrictEq k (rowGet row "ClientID"))
        · rfl
        · rw [hx] at hs; simp at hs
      rcases List.mem_cons.1 h with h | h
      · have hv : v = rowGet row "ClientID" := congrArg Prod.fst h
        have hg : g = clientMatches (rowGet row "ClientID") (row :: rest) i :=
          congrArg Prod.snd h
        subst hv
        refine ⟨ht, hsf, hg, ?_⟩
        rw [hg]
        simp [clientMatches, ht, jsStrictEq_refl _ hw]
      · have ih := freshTracker_mem rest (i + 1) _ hrest v g h
        have hcons := ih.2.1
        rw [List.any_cons] at hcons
        have hwv : jsStrictEq (rowGet row "ClientID") v = false := by
          cases hx : jsStrictEq (rowGet row "ClientID") v
          · rfl
          · rw [hx] at hcons; simp at hcons
        have hseenv : seen.any (fun k => jsStrictEq k v) = false := by
          cases hx : seen.any (fun k => jsStrictEq k v)
          · rfl
          · rw [hx] at hcons; simp at hcons
        refine ⟨ih.1, hseenv, ?_, ih.2.2.2⟩
        rw [ih.2.2.1]
        simp [clientMatches, ht, hwv]
    · rw [if_neg hcond] at h
      have ih := freshTracker_mem rest (i + 1) seen hrest v g h
      refine ⟨ih.1, ih.2.1, ?_, ih.2.2.2⟩
      rw [ih.2.2.1]
      by_cases ht : truthy (rowGet row "ClientID") = true
      · have hs : seen.any (fun k => jsStrictEq k (rowGet row "ClientID")) = true := by
          cases hx : seen.any (fun k => jsStrictEq k (rowGet row "ClientID"))
          · exact absurd (by simp [ht, hx]) hcond
          · rfl
        have hwv : jsStrictEq (rowGet row "ClientID") v = false := by
          cases hx : jsStrictEq (rowGet row "ClientID") v
          · rfl
          · obtain ⟨s, hsm, hsw⟩ := List.any_eq_true.1 hs
            have hsv : jsStrictEq s v = true := jsStrictEq_trans hsw hx
            have : seen.any (fun k => jsStrictEq k v) = true :=
              List.any_eq_true.2 ⟨s, hsm, hsv⟩
            rw [ih.2.1] at this
            exact absurd this (by simp)
        simp [clientMatches, ht, hwv]
      · have htf : truthy (rowGet row "ClientID") = false := Bool.eq_false_iff.mpr ht
        simp [clientMatches, htf]

/-- Every row with a truthy `ClientID` unmatched by `seen` is indexed
in some group of the reference tracker. -/
theorem freshTracker_covers :
    ∀ (rest : List JSRow) (i : Nat) (seen : List JSValue),
    (∀ row ∈ rest, isArrVal (rowGet row "ClientID") = false) →
    ∀ (k : Nat),
    truthy (rowGet (rest.getD k []) "ClientID") = true →
    seen.any (fun s => jsStrictEq s (rowGet (rest.getD k []) "ClientID")) = false →
    ∃ v g, (v, g) ∈ freshTracker rest i seen ∧ (i + k) ∈ g
  | [], _, _, _, k, hkt, _ => by simp [rowGet, truthy] at hkt
  | row :: rest, i, seen, harr, 0, hkt, hks => by
    have hw : isArrVal (rowGet row "ClientID") = false :=
      harr row (List.mem_cons_self _ _)
    simp only [List.getD_cons_zero] at hkt hks
    simp only [freshTracker]
    rw [if_pos (by simp [hkt, hks])]
    refine ⟨rowGet row "ClientID",
      clientMatches (rowGet row "ClientID") (row :: rest) i,
      List.mem_cons_self _ _, ?_⟩
    simp [clientMatches, hkt, jsStrictEq_refl _ hw]
  | row :: rest, i, seen, harr, k + 1, hkt, hks => by
    have hw : isArrVal (rowGet row "ClientID") = false :=
      harr row (List.mem_cons_self _ _)
    have hrest : ∀ r ∈ rest, isArrVal (rowGet r "ClientID") = false :=
      fun r hr => harr r (List.mem_cons_of_mem _ hr)
    simp only [List.getD_cons_succ] at hkt hks
    simp only [freshTracker]
    by_cases hcond : (truthy (rowGet row "ClientID") &&
        !(seen.any (fun s => jsStrictEq s (rowGet row "ClientID")))) = true
    · rw [if_pos hcond]
      by_cases hmat : jsStrictEq (rowGet (rest.getD k []) "ClientID")
          (rowGet row "ClientID") = true
      · refine ⟨rowGet row "ClientID",
          clientMatches (rowGet row "ClientID") (row :: rest) i,
          List.mem_cons_self _ _, ?_⟩
        have hmem := clientMatches_getD (rowGet row "ClientID") rest (i + 1) k
          (by rw [Bool.and_eq_true]; exact ⟨hkt, hmat⟩)
        have h2 : i + (k + 1) = (i + 1) + k := by omega
        simp only [clientMatches]
        rw [h2]
        exact List.mem_append_right _ hmem
      · have hwt : jsStrictEq (rowGet row "ClientID")
            (rowGet (rest.getD k []) "ClientID") = false := by
          rw [jsStrictEq_symm, Bool.eq_false_iff]
          exact fun hx => hmat hx
        obtain ⟨v, g, hvg, hmem⟩ := freshTracker_covers rest (i + 1)
          (rowGet row "ClientID" :: seen) hrest k hkt
          (by simp only [List.any_cons]
              rw [hwt, Bool.false_or]
              exact hks)
        refine ⟨v, g, List.mem_cons_of_mem _ hvg, ?_⟩
        have h2 : i + (k + 1) = (i + 1) + k := by omega
        rw [h2]
        exact hmem
    · rw [if_neg hcond]
      obtain ⟨v, g, hvg, hmem⟩ := freshTracker_covers rest (i + 1) seen hrest k hkt hks
      refine ⟨v, g, hvg, ?_⟩
      have h2 : i + (k + 1) = (i + 1) + k := by omega
      rw [h2]
      exact hmem

/-- C3: under the built-in registry (for tables whose `ClientID` cells
are not arrays — arrays are Map-keyed by object reference, outside a
structural embedding), the output of `validateData` is the per-row
errors followed by the appended duplicate errors; every duplicate group
holds exactly the ascending row indices whose truthy `ClientID` is
strictly equal to the group key; a group of two or more rows emits one
`duplicate-ids` error per affected row index, in ascending order, each
with column `ClientID` and a message listing all affected 1-based row
numbers comma-joined; and every row with a truthy `ClientID` belongs to
some group. -/
theorem duplicate_group_errors (data : List JSRow) (headers : List String)
    (fileName : String) (files : Option Dataset)
    (harr : ∀ row ∈ data, isArrVal (rowGet row "ClientID") = false) :
    validateData builtinRules data headers fileName files =
      (perRowErrs builtinRules files data 0).map
        (fun es => es ++ dupPhase (buildTracker builtinRules data)) ∧
    (∀ v g, (v, g) ∈ buildTracker builtinRules data →
      truthy v = true ∧ g = clientMatches v data 0 ∧ g ≠ [] ∧
      List.Chain' (· < ·) g ∧
      dupGroupErrors v g =
        (if 2 ≤ g.length then
          g.map (fun ri =>
            (⟨ri, "ClientID",
              "Duplicate ID \"" ++ jsToString v ++ "\" found in rows " ++
                String.intercalate ", " (g.map (fun r => toString (r + 1))),
              Severity.error, "duplicate-ids"⟩ : ValidationError))
        else [])) ∧
    (∀ k, truthy (rowGet (data.getD k []) "ClientID") = true →
      ∃ v g, (v, g) ∈ buildTracker builtinRules data ∧ k ∈ g) := by
  refine ⟨validateData_decomp builtinRules data headers fileName files, ?_, ?_⟩
  · intro v g hvg
    rw [buildTracker_builtin data harr] at hvg
    have h := freshTracker_mem data 0 [] harr v g hvg
    refine ⟨h.1, h.2.2.1, h.2.2.2, ?_, ?_⟩
    · rw [h.2.2.1]
      exact (clientMatches_chain v data 0).1
    · simp only [dupGroupErrors]
      by_cases hl : g.length > 1
      · rw [if_pos hl, if_pos (show 2 ≤ g.length by omega)]
      · rw [if_neg hl, if_neg (show ¬2 ≤ g.length by omega)]
  · intro k hk
    obtain ⟨v, g, hvg, hmem⟩ := freshTracker_covers data 0 [] harr k hk (by simp)
    rw [← buildTracker_builtin data harr] at hvg
    exact ⟨v, g, hvg, by simpa using hmem⟩

/-- Witness for `duplicate_group_errors`: a six-row table whose rows at
0-based indices 2 and 5 share `ClientID = "C1"`; the group is `[2, 5]`
and its errors mention rows `3, 6`. -/
theorem duplicate_group_errors_witness :
    truthy (JSValue.vStr "C1") = true ∧
    ([2, 5] : List Nat) = clientMatches (JSValue.vStr "C1")
      [[("Name", JSValue.vStr "a")],
       [("Name", JSValue.vStr "b")],
       [("ClientID", JSValue.vStr "C1"), ("Name", JSValue.vStr "c")],
       [("Name", JSValue.vStr "d")],
       [("Name", JSValue.vStr "e")],
       [("ClientID", JSValue.vStr "C1"), ("Name", JSValue.vStr "f")]] 0 ∧
    ([2, 5] : List Nat) ≠ [] ∧
    List.Chain' (· < ·) ([2, 5] : List Nat) ∧
    dupGroupErrors (JSValue.vStr "C1") [2, 5] =
      (if 2 ≤ ([2, 5] : List Nat).length then
        ([2, 5] : List Nat).map (fun ri =>
          (⟨ri, "ClientID",
            "Duplicate ID \"" ++ jsToString (JSValue.vStr "C1") ++ "\" found in rows " ++
              String.intercalate ", " (([2, 5] : List Nat).map (fun r => toString (r + 1))),
            Severity.error, "duplicate-ids"⟩ : ValidationError))
      else []) :=
  (duplicate_group_errors
    [[("Name", JSValue.vStr "a")],
     [("Name", JSValue.vStr "b")],
     [("ClientID", JSValue.vStr "C1"), ("Name", JSValue.vStr "c")],
     [("Name", JSValue.vStr "d")],
     [("Name", JSValue.vStr "e")],
     [("ClientID", JSValue.vStr "C1"), ("Name", JSValue.vStr "f")]]
    [] "clients.csv" none (by decide)).2.1
    (JSValue.vStr "C1") [2, 5] (List.Mem.head _)

end DataClarity
